import Mathlib

/-!
Verification of the AI question-generation subsystem of the Quizly backend.

The development embeds, as executable Lean functions, the parse/validate
pipeline, the provider factories and the health checks found in
`backend/llm_providers.py` (the monolithic module) and in the
`backend/llm_providers/` package (`ollama_provider.py`, `openai_provider.py`,
`__init__.py`), together with the identical copies in `backend/llm/` and
`backend/llm_providers/ollama.py`.  Python values decoded by `json.loads`
are modelled by the `Json` type below; `json.loads` itself is an external
library, so it enters the model as an oracle `loads : String → Option Json`
(`none` models a raised `json.JSONDecodeError`).  Python exceptions are
modelled by the `PyExn` type and raising code by `Except PyExn`.
-/

namespace Quizly

/-- A value produced by Python's `json.loads`: `null`/`bool`/`num`/`str` are
scalars, `arr` a list, `obj` a dict.  An `obj` models a Python dict after
`json.loads`, whose keys are unique, so first-match lookup is unambiguous. -/
inductive Json where
  | null : Json
  | bool (b : Bool) : Json
  | num (n : Int) : Json
  | str (s : String) : Json
  | arr (elems : List Json) : Json
  | obj (fields : List (String × Json)) : Json
deriving Repr

mutual

/-- Structural equality on `Json`, mirroring Python `==` on decoded values. -/
def Json.beq : Json → Json → Bool
  | .null, .null => true
  | .bool a, .bool b => a == b
  | .num a, .num b => a == b
  | .str a, .str b => a == b
  | .arr a, .arr b => Json.beqList a b
  | .obj a, .obj b => Json.beqFields a b
  | _, _ => false

def Json.beqList : List Json → List Json → Bool
  | [], [] => true
  | a :: as, b :: bs => Json.beq a b && Json.beqList as bs
  | _, _ => false

def Json.beqFields : List (String × Json) → List (String × Json) → Bool
  | [], [] => true
  | (k, v) :: as, (l, w) :: bs => k == l && Json.beq v w && Json.beqFields as bs
  | _, _ => false

end

instance : BEq Json := ⟨Json.beq⟩

/-- Python exception values reaching the subsystem boundary, named after the
exception classes the source raises or catches. -/
inductive PyExn where
  | typeError : PyExn
  | attributeError : PyExn
  | keyError : PyExn
  | valueError (msg : String) : PyExn
  | jsonDecodeError : PyExn
  | requestsConnectionError (msg : String) : PyExn
  | ollamaResponseError (msg : String) : PyExn
  | llmConnectionError (msg : String) : PyExn
  | llmAPIError (msg : String) : PyExn
  | runtimeError (msg : String) : PyExn
deriving Repr, DecidableEq

/-- First-match field lookup in an object, `none` when the key is absent
(unambiguous because a decoded dict has unique keys). -/
def Json.lookup (j : Json) (k : String) : Option Json :=
  match j with
  | .obj fields => (fields.find? (fun p => p.1 == k)).map (fun p => p.2)
  | _ => none

/-- Python `key in value`: key membership for a dict, element membership for
a list, substring test for a string; `TypeError` on the other values,
exactly as Python's `in` behaves on decoded JSON. -/
def keyIn (k : String) (j : Json) : Except PyExn Bool :=
  match j with
  | .obj fields => .ok (fields.any (fun p => p.1 == k))
  | .arr elems => .ok (elems.contains (Json.str k))
  | .str s => .ok (decide ((s.splitOn k).length > 1))
  | _ => .error .typeError

/-- Python `all(key in j for key in ks)` with `all`'s short-circuiting. -/
def allKeysIn (j : Json) : List String → Except PyExn Bool
  | [] => .ok true
  | k :: ks => do
    let b ← keyIn k j
    if b then allKeysIn j ks else pure false

/-- Python `j[k]`: field access on a dict (`KeyError` when absent),
`TypeError` when `j` is not a dict (string keys never index lists/strings). -/
def pyIndex (j : Json) (k : String) : Except PyExn Json :=
  match j with
  | .obj _ =>
    match j.lookup k with
    | some v => .ok v
    | none => .error .keyError
  | _ => .error .typeError

/-- Python `j.get(k, d)`: only dicts have `.get` (`AttributeError` otherwise);
an absent key yields the default. -/
def pyGetD (j : Json) (k : String) (d : Json) : Except PyExn Json :=
  match j with
  | .obj _ => .ok ((j.lookup k).getD d)
  | _ => .error .attributeError

/-- Python `j.get(k)`, whose default is `None` (modelled by `Json.null`). -/
def pyGet (j : Json) (k : String) : Except PyExn Json :=
  pyGetD j k .null

/-- Whether a decoded value is hashable in Python (lists and dicts are not);
`set(...)` raises `TypeError` on an unhashable member. -/
def hashable : Json → Bool
  | .arr _ => false
  | .obj _ => false
  | _ => true

/-- Python truthiness of a decoded value. -/
def truthy : Json → Bool
  | .null => false
  | .bool b => b
  | .num n => decide (n ≠ 0)
  | .str s => decide (s ≠ "")
  | .arr elems => !elems.isEmpty
  | .obj fields => !fields.isEmpty

/-- Python `str.lower()`, character by character (ASCII case mapping; a
structural recursion over the character list, evaluable by the kernel). -/
def pyLower (s : String) : String := String.mk (s.data.map Char.toLower)

/-- Python `str.find`: index of the first occurrence (`none` models `-1`). -/
def charFind : List Char → Char → Option Nat
  | [], _ => none
  | x :: xs, c => if x == c then some 0 else (charFind xs c).map (· + 1)

/-- Python `str.rfind`: index of the last occurrence (`none` models `-1`). -/
def charRFind (cs : List Char) (c : Char) : Option Nat :=
  (charFind cs.reverse c).map (fun i => cs.length - 1 - i)

/-- The bracket-scan salvage of `_parse_response`: with
`start = content.find('[')` and `end = content.rfind(']') + 1`, the slice
`content[start:end]` when `start >= 0 and end > start`, else `none`.
(The monolith spells the guard
`start_index != -1 and end_index != -1 and end_index > start_index`,
which accepts exactly the same cases.) -/
def salvageSlice (content : String) : Option String :=
  match charFind content.data '[', charRFind content.data ']' with
  | some s, some e =>
    if e + 1 > s then some (String.mk ((content.data.drop s).take (e + 1 - s))) else none
  | _, _ => none

/-- The `json.loads` phase shared verbatim by every `_parse_response` in the
repository: strict parse of the whole text; on `JSONDecodeError` retry on the
bracket slice (a second decode failure propagates as `JSONDecodeError`); no
usable bracket pair raises `ValueError("Could not parse AI response as JSON")`. -/
def loadsPhase (loads : String → Option Json) (content : String) : Except PyExn Json :=
  match loads content with
  | some v => .ok v
  | none =>
    match salvageSlice content with
    | some sub =>
      match loads sub with
      | some v => .ok v
      | none => .error .jsonDecodeError
    | none => .error (.valueError "Could not parse AI response as JSON")

/-- `if not isinstance(questions_data, list): questions_data = [questions_data]`. -/
def ensureList : Json → List Json
  | .arr elems => elems
  | v => [v]

/-- One iteration of the package `_parse_response` loop
(`llm_providers/ollama_provider.py`, `llm_providers/openai_provider.py`,
`llm_providers/ollama.py`, `llm/openai_provider.py` — all identical): skip the
element unless the keys `text`, `options`, `correct_answer` are present, else
append a dict with a fresh `id` of `1000 + i` and `category` set to the
lowercased subject.  `some d` models an appended draft, `none` a `continue`. -/
def pkgValidate (subject : String) (i : Nat) (q : Json) : Except PyExn (Option Json) := do
  let ok ← allKeysIn q ["text", "options", "correct_answer"]
  if !ok then return none
  let text ← pyIndex q "text"
  let options ← pyIndex q "options"
  let correct ← pyIndex q "correct_answer"
  return some (.obj [("id", .num (1000 + (i : Int))), ("text", text), ("options", options),
    ("correct_answer", correct), ("category", .str (pyLower subject))])

/-- `for i, q_data in enumerate(...)` over the already-sliced list, package
version; skipped elements still advance `i`. -/
def pkgLoop (subject : String) : Nat → List Json → Except PyExn (List Json)
  | _, [] => .ok []
  | i, q :: qs => do
    let r ← pkgValidate subject i q
    let rest ← pkgLoop subject (i + 1) qs
    match r with
    | some d => return d :: rest
    | none => return rest

/-- Package `_parse_response(content, subject, limit)`: loads phase, wrap a
bare object, validate the first `limit` elements, and raise
`ValueError("No valid questions generated")` when nothing survived. -/
def pkgParseResponse (loads : String → Option Json) (content subject : String)
    (limit : Nat) : Except PyExn (List Json) := do
  let data ← loadsPhase loads content
  let kept ← pkgLoop subject 0 ((ensureList data).take limit)
  if kept.isEmpty then .error (.valueError "No valid questions generated")
  else return kept

/-- The comprehension `[opt.get("id") for opt in options]`: each entry must
be a dict (`AttributeError` otherwise), an absent `id` yields `None`. -/
def getIds : List Json → Except PyExn (List Json)
  | [] => .ok []
  | o :: os => do
    let v ← pyGet o "id"
    let rest ← getIds os
    return v :: rest

/-- Python `id_val in ['a', 'b', 'c', 'd']`. -/
def isAbcd (v : Json) : Bool :=
  v == Json.str "a" || v == Json.str "b" || v == Json.str "c" || v == Json.str "d"

/-- `len(set(l))`: the number of distinct values of `l`. -/
def numDistinct : List Json → Nat
  | [] => 0
  | x :: xs => (if xs.contains x then 0 else 1) + numDistinct xs

/-- One iteration of the monolith validation loop
(`llm_providers.py`, `OllamaProvider.generate_questions`): required keys,
`options` a list of exactly 4 entries, the 4 option ids distinct and drawn
from `{a,b,c,d}` (where `set()` raises `TypeError` on an unhashable id),
`correct_answer` among the ids; survivors keep their own `category`,
defaulted to the lowercased subject when absent, and carry no `id` field. -/
def monolithValidate (subject : String) (q : Json) : Except PyExn (Option Json) := do
  let ok ← allKeysIn q ["text", "options", "correct_answer"]
  if !ok then return none
  let optsVal ← pyGet q "options"
  match optsVal with
  | .arr opts =>
    if opts.length ≠ 4 then return none
    let optionIds ← getIds opts
    if !(optionIds.all hashable) then .error .typeError
    else if numDistinct optionIds ≠ 4 then return none
    else if !(optionIds.all isAbcd) then return none
    else do
      let correct ← pyGet q "correct_answer"
      if !(optionIds.contains correct) then return none
      let text ← pyIndex q "text"
      let optionsAgain ← pyIndex q "options"
      let correctAgain ← pyIndex q "correct_answer"
      let category ← pyGetD q "category" (.str (pyLower subject))
      return some (.obj [("text", text), ("options", optionsAgain),
        ("correct_answer", correctAgain), ("category", category)])
  | _ => return none

/-- The monolith validation loop over the sliced list (the index of
`enumerate` is unused there). -/
def monolithLoop (subject : String) : List Json → Except PyExn (List Json)
  | [] => .ok []
  | q :: qs => do
    let r ← monolithValidate subject q
    let rest ← monolithLoop subject qs
    match r with
    | some d => return d :: rest
    | none => return rest

/-- The parse section of the monolith `OllamaProvider.generate_questions`:
loads phase, wrap a bare object, validate the first `limit` elements — and
`return []` (no exception) when nothing survived. -/
def monolithParse (loads : String → Option Json) (content subject : String)
    (limit : Nat) : Except PyExn (List Json) := do
  let data ← loadsPhase loads content
  monolithLoop subject ((ensureList data).take limit)

/-- The monolith `OllamaProvider.generate_questions` around its parse section
(`llm_providers.py`): the transport outcome models
`ollama_client.chat(...)` plus the `response['message']['content']` access;
`requests.exceptions.ConnectionError` becomes `LLMConnectionError` (whose real
message interpolates the host), `ollama.ResponseError` becomes `LLMAPIError`,
and every other exception is re-raised bare (`except Exception as e: raise`).
`monolithClassify` is that except-clause cascade; `monolithGenerate` the method. -/
def monolithClassify : PyExn → PyExn
  | .requestsConnectionError _ =>
    .llmConnectionError "Could not connect to Ollama. Ensure Ollama is running."
  | .ollamaResponseError m => .llmAPIError ("Ollama API error: " ++ m)
  | e => e

def monolithGenerate (loads : String → Option Json) (subject : String) (limit : Nat)
    (transport : Except PyExn String) : Except PyExn (List Json) :=
  match (do
    let content ← transport
    monolithParse loads content subject limit : Except PyExn (List Json)) with
  | .ok qs => .ok qs
  | .error e => .error (monolithClassify e)

/-- The package `OllamaProvider.generate_questions`
(`llm_providers/ollama_provider.py`): an uninitialized client returns `[]`;
the transport outcome models `self._client.chat(...)` plus the
`response.get("message", {}).get("content")` extraction (`none` for a missing
or `None` content); empty content raises `ValueError`, and every exception —
parse `ValueError`/`JSONDecodeError`, `ollama.ResponseError`, or anything
else — is re-raised as a `RuntimeError` (with messages interpolating the
cause).  `pkgClassify` is that except-clause cascade; `pkgGenerate` the
method. -/
def pkgClassify : PyExn → PyExn
  | .jsonDecodeError => .runtimeError "Failed to parse response from Ollama"
  | .valueError m => .runtimeError ("Failed to parse response from Ollama: " ++ m)
  | .ollamaResponseError m => .runtimeError ("Ollama API call failed: " ++ m)
  | _ => .runtimeError "Ollama question generation failed"

def pkgGenerate (loads : String → Option Json) (clientInit : Bool) (subject : String)
    (limit : Nat) (transport : Except PyExn (Option String)) : Except PyExn (List Json) :=
  if !clientInit then .ok []
  else
    match (do
      let resp ← transport
      match resp with
      | none =>
        .error (.valueError "Ollama response content is empty or not in expected format.")
      | some content =>
        if content == "" then
          .error (.valueError "Ollama response content is empty or not in expected format.")
        else pkgParseResponse loads content subject limit : Except PyExn (List Json)) with
    | .ok qs => .ok qs
    | .error e => .error (pkgClassify e)

/-- The condition `response and response.get("message") and
"content" in response.get("message", {})` of the package Ollama health check;
any exception it raises stays inside the method's `try`. -/
def ollamaHealthBody (resp : Json) : Except PyExn Bool := do
  if !(truthy resp) then return false
  let msg ← pyGet resp "message"
  if !(truthy msg) then return false
  let msgD ← pyGetD resp "message" (.obj [])
  keyIn "content" msgD

/-- The package `OllamaProvider.health_check`
(`llm_providers/ollama_provider.py`): `False` for an uninitialized client;
otherwise one cheap chat request whose raised `ollama.ResponseError` or any
other `Exception` is caught and turned into `False`. -/
def ollamaHealthCheck (clientInit : Bool) (transport : Except PyExn Json) : Bool :=
  if !clientInit then false
  else
    match (do
      let resp ← transport
      ollamaHealthBody resp : Except PyExn Bool) with
    | .ok b => b
    | .error _ => false

/-- The package `OpenAIProvider.health_check`
(`llm_providers/openai_provider.py`): the transport outcome models the
1-token completion; its choices are modelled by their `message.content`
values.  An empty choices list makes `response.choices[0]` raise inside the
`try` (caught, `False`); otherwise the result is
`response.choices[0].message.content is not None`. -/
def openaiHealthCheck (clientInit : Bool) (transport : Except PyExn (List (Option String))) :
    Bool :=
  if !clientInit then false
  else
    match transport with
    | .error _ => false
    | .ok [] => false
    | .ok (c :: _) => c.isSome

/-- A provider instance built by the package factory. -/
inductive Provider where
  | ollamaP (model host : String) (clientInit : Bool) : Provider
  | openaiP (apiKey : Option String) (model : String) (clientInit : Bool) : Provider
deriving Repr, DecidableEq

/-- The package `OpenAIProvider._initialize_openai`
(`llm_providers/openai_provider.py`): a missing or empty key only logs a
warning and leaves the client `None` — no exception is raised. -/
def openaiInitPkg (apiKey : Option String) : Bool :=
  match apiKey with
  | none => false
  | some k => !(k == "")

/-- The package factory `create_llm_provider` (`llm_providers/__init__.py`),
with the environment/kwarg-resolved values passed explicitly.
`ollamaInitOk` is the outcome of the network probe `self._client.list()`
that `OllamaProvider.__init__` performs and whose failure it swallows. -/
def create_llm_provider (providerType : String) (apiKey : Option String)
    (model host : String) (ollamaInitOk : Bool) : Except PyExn Provider :=
  if providerType == "ollama" then .ok (.ollamaP model host ollamaInitOk)
  else if providerType == "openai" then .ok (.openaiP apiKey model (openaiInitPkg apiKey))
  else .error (.valueError ("Unknown provider type: " ++ providerType))

/-- A provider instance built by the monolith factory. -/
inductive MonoProvider where
  | ollamaM (host model : String) : MonoProvider
  | openaiM (apiKey model : String) : MonoProvider
deriving Repr, DecidableEq

/-- The monolith factory `get_llm_provider` (`llm_providers.py`), with each
`os.getenv` result passed explicitly (`none` models an unset variable).
An unrecognized provider name logs a warning and falls back to the default
Ollama provider; a missing or empty `OPENAI_API_KEY` raises `ValueError`.
Neither path performs network access: both monolith constructors only store
their fields. -/
def get_llm_provider (llmProviderEnv openaiKeyEnv ollamaHostEnv ollamaModelEnv
    openaiModelEnv : Option String) : Except PyExn MonoProvider :=
  let name := pyLower (llmProviderEnv.getD "ollama")
  if name == "ollama" then
    .ok (.ollamaM (ollamaHostEnv.getD "http://localhost:11434") (ollamaModelEnv.getD "llama3.2"))
  else if name == "openai" then
    match openaiKeyEnv with
    | none => .error (.valueError
        "OPENAI_API_KEY is required for OpenAIProvider but not found in environment variables.")
    | some k =>
      if k == "" then .error (.valueError
        "OPENAI_API_KEY is required for OpenAIProvider but not found in environment variables.")
      else .ok (.openaiM k (openaiModelEnv.getD "gpt-3.5-turbo"))
  else
    .ok (.ollamaM (ollamaHostEnv.getD "http://localhost:11434") (ollamaModelEnv.getD "llama3.2"))

/-- Whether an exception value belongs to the classified provider-error
classes the repository defines (`LLMConnectionError`, `LLMAPIError` — the
code has no `ConfigurationError`/`ParseError` class at all). -/
def taxonomyKind : PyExn → Bool
  | .llmConnectionError _ => true
  | .llmAPIError _ => true
  | _ => false

/-- Whether a decoded value is a dict. -/
def isObj : Json → Bool
  | .obj _ => true
  | _ => false

/-- The keys of a draft dict, in insertion order. -/
def objKeys : Json → List String
  | .obj fields => fields.map (fun p => p.1)
  | _ => []

/-- The required-key test both loops apply, as a pure predicate on a dict. -/
def hasRequiredKeys (q : Json) : Bool :=
  match q with
  | .obj fields => ["text", "options", "correct_answer"].all
      (fun k => fields.any (fun p => p.1 == k))
  | _ => false

/-- The option ids `[opt.get("id") for opt in options]` of a list of dict
entries, as a pure function (an absent id is `None`). -/
def optionIdsOf (opts : List Json) : List Json :=
  opts.map (fun o => (o.lookup "id").getD .null)

/-- A well-formed question element in the sense of spec §4.3 step 4: the
required keys present, `options` a list of exactly 4 entries each carrying
`id` and `text`, the 4 ids pairwise distinct and drawn from `{a,b,c,d}`, and
`correct_answer` one of those ids.  Stated from the spec's words, to be
compared against what each implementation actually keeps. -/
def specWellFormed (q : Json) : Bool :=
  hasRequiredKeys q &&
  (match q.lookup "options" with
   | some (.arr opts) =>
     opts.length == 4 &&
     opts.all (fun o => (o.lookup "id").isSome && (o.lookup "text").isSome) &&
     numDistinct (optionIdsOf opts) == 4 &&
     (optionIdsOf opts).all isAbcd &&
     (optionIdsOf opts).contains ((q.lookup "correct_answer").getD .null)
   | _ => false)

/-- The acceptance predicate of the monolith loop, as a pure function: the
checks it performs on a dict element (it never inspects a per-option
`text`, unlike spec §4.3). -/
def monolithKeeps (q : Json) : Bool :=
  hasRequiredKeys q &&
  (match q.lookup "options" with
   | some (.arr opts) =>
     opts.length == 4 &&
     numDistinct (optionIdsOf opts) == 4 &&
     (optionIdsOf opts).all isAbcd &&
     (optionIdsOf opts).contains ((q.lookup "correct_answer").getD .null)
   | _ => false)

/-- The dict the monolith appends for a kept element. -/
def monolithDraftOf (subject : String) (q : Json) : Json :=
  .obj [("text", (q.lookup "text").getD .null),
    ("options", (q.lookup "options").getD .null),
    ("correct_answer", (q.lookup "correct_answer").getD .null),
    ("category", (q.lookup "category").getD (.str (pyLower subject)))]

/-- The dict the package loop appends for element `i`. -/
def pkgDraftOf (subject : String) (i : Nat) (q : Json) : Json :=
  .obj [("id", .num (1000 + (i : Int))),
    ("text", (q.lookup "text").getD .null),
    ("options", (q.lookup "options").getD .null),
    ("correct_answer", (q.lookup "correct_answer").getD .null),
    ("category", .str (pyLower subject))]

/-- What the package loop returns on a list of dict elements, as a pure
function: the elements carrying the required keys, as enumerated drafts. -/
def pkgKept (subject : String) : Nat → List Json → List Json
  | _, [] => []
  | i, q :: qs =>
    if hasRequiredKeys q then pkgDraftOf subject i q :: pkgKept subject (i + 1) qs
    else pkgKept subject (i + 1) qs

/-- An element on which the monolith loop cannot raise: a dict whose
`options` value, when it is a list of exactly 4 entries, consists of dicts
with hashable ids.  (On other elements Python's dynamic checks raise
`TypeError`/`AttributeError` and abort the whole batch.) -/
def tameElem (q : Json) : Bool :=
  match q with
  | .obj _ =>
    (match q.lookup "options" with
     | some (.arr opts) =>
       opts.length != 4 ||
       opts.all (fun o => isObj o && hashable ((o.lookup "id").getD .null))
     | _ => true)
  | _ => false

/-! Concrete sample data, used to evaluate the pipeline at explicit inputs:
the spec §8 example element, variants of it, and `loads` oracles returning
them (an oracle models `json.loads` succeeding on exactly one input text). -/

def optA : Json := .obj [("id", .str "a"), ("text", .str "Lima")]

def optB : Json := .obj [("id", .str "b"), ("text", .str "Quito")]

def optC : Json := .obj [("id", .str "c"), ("text", .str "Bogota")]

def optD : Json := .obj [("id", .str "d"), ("text", .str "Santiago")]

/-- The well-formed element of spec §8. -/
def goodElem : Json := .obj [("text", .str "Capital of Peru?"),
  ("options", .arr [optA, optB, optC, optD]), ("correct_answer", .str "a")]

/-- Malformed: a duplicate option id (`a` twice, no `b`). -/
def dupElem : Json := .obj [("text", .str "Dup?"),
  ("options", .arr [optA, optA, optC, optD]), ("correct_answer", .str "a")]

/-- Malformed: an empty dict, missing every required key. -/
def badElem : Json := .obj []

/-- Well-formed, with a source-supplied `category`. -/
def catElem : Json := .obj [("text", .str "Who?"),
  ("options", .arr [optA, optB, optC, optD]), ("correct_answer", .str "b"),
  ("category", .str "history")]

def loadsGood : String → Option Json := fun s =>
  if s == "RAW" then some (.arr [goodElem]) else none

def loadsGoodDup : String → Option Json := fun s =>
  if s == "RAW" then some (.arr [goodElem, dupElem]) else none

def loadsBad : String → Option Json := fun s =>
  if s == "RAW" then some (.arr [badElem]) else none

def loadsCat : String → Option Json := fun s =>
  if s == "RAW" then some (.arr [catElem]) else none

def loadsNone : String → Option Json := fun _ => none

def loadsEmptyArr : String → Option Json := fun s =>
  if s == "RAW" then some (.arr []) else none

def loadsW4 : String → Option Json := fun s =>
  if s == "[x]" then some (.arr [goodElem]) else none

def loadsLate : String → Option Json := fun s =>
  if s == "RAW" then some (.arr [badElem, badElem, goodElem]) else none

def loadsTwoBad : String → Option Json := fun s =>
  if s == "RAW" then some (.arr [badElem, badElem]) else none

section Lemmas

theorem bind_ok {α β : Type} (a : α) (f : α → Except PyExn β) :
    (Except.ok a >>= f : Except PyExn β) = f a := rfl

theorem bind_error {α β : Type} (e : PyExn) (f : α → Except PyExn β) :
    (Except.error e >>= f : Except PyExn β) = Except.error e := rfl

theorem pure_eq_ok {α : Type} (a : α) : (pure a : Except PyExn α) = Except.ok a := rfl

/-- Key presence read off the pure lookup agrees with the `any` scan
`keyIn` performs on a dict. -/
theorem lookup_isSome_eq_any (fs : List (String × Json)) (k : String) :
    ((Json.obj fs).lookup k).isSome = fs.any (fun p => p.1 == k) := by
  induction fs with
  | nil => rfl
  | cons p fs ih =>
    simp only [Json.lookup, List.find?, List.any_cons]
    cases h : p.1 == k
    · simpa [h, Json.lookup] using ih
    · simp [h]

/-- `all(key in q_data for key in ks)` on a dict never raises and computes
the conjunction of the key-presence tests. -/
theorem allKeysIn_obj (fs : List (String × Json)) (ks : List String) :
    allKeysIn (.obj fs) ks = .ok (ks.all (fun k => fs.any (fun p => p.1 == k))) := by
  induction ks with
  | nil => rfl
  | cons k ks ih =>
    simp only [allKeysIn, keyIn, bind_ok, List.all_cons]
    cases h : fs.any (fun p => p.1 == k)
    · simp [h, pure_eq_ok]
    · simp [h, ih]

/-- On a dict, the required-keys scan of both loops computes
`hasRequiredKeys`. -/
theorem allKeysIn_required (fs : List (String × Json)) :
    allKeysIn (.obj fs) ["text", "options", "correct_answer"] =
      .ok (hasRequiredKeys (.obj fs)) := by
  rw [allKeysIn_obj]; rfl

/-- A dict with the required keys has a value at each of them. -/
theorem hasRequiredKeys_lookup (fs : List (String × Json))
    (h : hasRequiredKeys (.obj fs) = true) :
    ((Json.obj fs).lookup "text").isSome = true ∧
    ((Json.obj fs).lookup "options").isSome = true ∧
    ((Json.obj fs).lookup "correct_answer").isSome = true := by
  simp only [hasRequiredKeys, List.all_cons, List.all_nil, Bool.and_true,
    Bool.and_eq_true] at h
  refine ⟨?_, ?_, ?_⟩ <;> rw [lookup_isSome_eq_any] <;> simp [h.1, h.2.1, h.2.2]

/-- The id comprehension never raises on a list of dict entries and computes
`optionIdsOf`. -/
theorem getIds_of_objs (opts : List Json) (h : opts.all isObj = true) :
    getIds opts = .ok (optionIdsOf opts) := by
  induction opts with
  | nil => rfl
  | cons o os ih =>
    simp only [List.all_cons, Bool.and_eq_true] at h
    cases o with
    | obj fs =>
      simp only [getIds, pyGet, pyGetD, bind_ok, ih h.2, optionIdsOf, List.map_cons,
        pure_eq_ok]
    | null => simp [isObj] at h
    | bool b => simp [isObj] at h
    | num n => simp [isObj] at h
    | str s => simp [isObj] at h
    | arr es => simp [isObj] at h

/-- A tame dict whose `options` value is a list of exactly 4 entries has
only dict entries, with hashable ids. -/
theorem tame_opts (fs : List (String × Json)) (opts : List Json)
    (h : tameElem (.obj fs) = true)
    (hvo : (Json.obj fs).lookup "options" = some (.arr opts))
    (hlen : opts.length = 4) :
    opts.all isObj = true ∧ (optionIdsOf opts).all hashable = true := by
  simp only [tameElem, hvo, hlen] at h
  simp only [bne_self_eq_false, Bool.false_or, List.all_eq_true, Bool.and_eq_true] at h
  constructor
  · exact List.all_eq_true.mpr fun o ho => (h o ho).1
  · rw [optionIdsOf, List.all_map]
    exact List.all_eq_true.mpr fun o ho => (h o ho).2

/-- The package per-element step never raises on a dict: it keeps exactly
the dicts carrying the three required keys, as the enumerated draft. -/
theorem pkgValidate_obj (subject : String) (i : Nat) (q : Json) (h : isObj q = true) :
    pkgValidate subject i q =
      .ok (if hasRequiredKeys q then some (pkgDraftOf subject i q) else none) := by
  cases q with
  | obj fs =>
    simp only [pkgValidate, allKeysIn_required, bind_ok]
    cases hk : hasRequiredKeys (.obj fs)
    · simp [hk, pure_eq_ok]
    · obtain ⟨hts, hos, hcs⟩ := hasRequiredKeys_lookup fs hk
      obtain ⟨vt, hvt⟩ := Option.isSome_iff_exists.mp hts
      obtain ⟨vo, hvo⟩ := Option.isSome_iff_exists.mp hos
      obtain ⟨vc, hvc⟩ := Option.isSome_iff_exists.mp hcs
      simp [pyIndex, hvt, hvo, hvc, pkgDraftOf, pure_eq_ok, bind_ok]
  | null => simp [isObj] at h
  | bool b => simp [isObj] at h
  | num n => simp [isObj] at h
  | str s => simp [isObj] at h
  | arr es => simp [isObj] at h

/-- The monolith per-element step never raises on a tame element: it keeps
exactly the elements accepted by `monolithKeeps`, as the monolith draft. -/
theorem monolithValidate_tame (subject : String) (q : Json) (h : tameElem q = true) :
    monolithValidate subject q =
      .ok (if monolithKeeps q then some (monolithDraftOf subject q) else none) := by
  cases q with
  | obj fs =>
    simp only [monolithValidate, allKeysIn_required, bind_ok]
    cases hk : hasRequiredKeys (.obj fs)
    · simp [hk, monolithKeeps, pure_eq_ok]
    · obtain ⟨hts, hos, hcs⟩ := hasRequiredKeys_lookup fs hk
      obtain ⟨vt, hvt⟩ := Option.isSome_iff_exists.mp hts
      obtain ⟨vo, hvo⟩ := Option.isSome_iff_exists.mp hos
      obtain ⟨vc, hvc⟩ := Option.isSome_iff_exists.mp hcs
      cases vo with
      | arr opts =>
        by_cases hlen : opts.length = 4
        · obtain ⟨hobjs, hhash⟩ := tame_opts fs opts h hvo hlen
          have hhashAll : ∀ x ∈ optionIdsOf opts, hashable x = true :=
            List.all_eq_true.mp hhash
          have hnex1 : ¬∃ x ∈ optionIdsOf opts, hashable x = false := by
            rintro ⟨x, hx, hfx⟩
            rw [hhashAll x hx] at hfx
            cases hfx
          by_cases hdis : numDistinct (optionIdsOf opts) = 4
          · by_cases habcd : (optionIdsOf opts).all isAbcd = true
            · have habcdAll : ∀ x ∈ optionIdsOf opts, isAbcd x = true :=
                List.all_eq_true.mp habcd
              have hnex2 : ¬∃ x ∈ optionIdsOf opts, isAbcd x = false := by
                rintro ⟨x, hx, hfx⟩
                rw [habcdAll x hx] at hfx
                cases hfx
              by_cases hcont : (optionIdsOf opts).contains vc = true
              · simp [pyGet, pyGetD, pyIndex, hvt, hvo, hvc, getIds_of_objs opts hobjs,
                  hnex1, hnex2, hlen, hdis, hcont, monolithKeeps, monolithDraftOf,
                  hk, habcd, bind_ok, pure_eq_ok]
              · simp [pyGet, pyGetD, hvo, hvc, getIds_of_objs opts hobjs, hnex1, hnex2,
                  hlen, hdis, hcont, monolithKeeps, hk, habcd, bind_ok, pure_eq_ok]
            · have habcdEx : ∃ x ∈ optionIdsOf opts, isAbcd x = false := by
                simp only [List.all_eq_true] at habcd
                push_neg at habcd
                simpa [Bool.not_eq_true] using habcd
              simp [pyGet, pyGetD, hvo, hvc, getIds_of_objs opts hobjs, hnex1, hlen,
                hdis, habcdEx, habcd, monolithKeeps, hk, bind_ok, pure_eq_ok]
          · simp [pyGet, pyGetD, hvo, hvc, getIds_of_objs opts hobjs, hnex1, hlen,
              hdis, monolithKeeps, hk, bind_ok, pure_eq_ok]
        · simp [pyGet, pyGetD, hvo, hlen, monolithKeeps, hk, bind_ok, pure_eq_ok]
      | null => simp [pyGet, pyGetD, monolithKeeps, hk, hvo, bind_ok, pure_eq_ok]
      | bool b => simp [pyGet, pyGetD, monolithKeeps, hk, hvo, bind_ok, pure_eq_ok]
      | num n => simp [pyGet, pyGetD, monolithKeeps, hk, hvo, bind_ok, pure_eq_ok]
      | str s => simp [pyGet, pyGetD, monolithKeeps, hk, hvo, bind_ok, pure_eq_ok]
      | obj gs => simp [pyGet, pyGetD, monolithKeeps, hk, hvo, bind_ok, pure_eq_ok]
  | null => simp [tameElem] at h
  | bool b => simp [tameElem] at h
  | num n => simp [tameElem] at h
  | str s => simp [tameElem] at h
  | arr es => simp [tameElem] at h

/-- The monolith loop never raises on tame elements: it returns the drafts
of exactly the accepted elements, in order. -/
theorem monolithLoop_tame (subject : String) (qs : List Json)
    (h : qs.all tameElem = true) :
    monolithLoop subject qs =
      .ok ((qs.filter monolithKeeps).map (monolithDraftOf subject)) := by
  induction qs with
  | nil => rfl
  | cons q qs ih =>
    simp only [List.all_cons, Bool.and_eq_true] at h
    simp only [monolithLoop, monolithValidate_tame subject q h.1, bind_ok, ih h.2]
    by_cases hkq : monolithKeeps q = true
    · simp [hkq, List.filter_cons, pure_eq_ok, bind_ok]
    · simp [hkq, List.filter_cons, pure_eq_ok, bind_ok]

/-- The package loop never raises on dict elements: it returns the
enumerated drafts of exactly the elements with the required keys. -/
theorem pkgLoop_objs (subject : String) (qs : List Json) (i : Nat)
    (h : qs.all isObj = true) :
    pkgLoop subject i qs = .ok (pkgKept subject i qs) := by
  induction qs generalizing i with
  | nil => rfl
  | cons q qs ih =>
    simp only [List.all_cons, Bool.and_eq_true] at h
    simp only [pkgLoop, pkgValidate_obj subject i q h.1, bind_ok, ih (i + 1) h.2]
    by_cases hkq : hasRequiredKeys q = true
    · simp [hkq, pkgKept, pure_eq_ok, bind_ok, ih (i + 1) h.2]
    · simp [hkq, pkgKept, pure_eq_ok, bind_ok, ih (i + 1) h.2]

/-- The monolith parse of a decoded array validates the first `limit`
elements and returns the accepted ones — the empty list included. -/
theorem monolithParse_arr (loads : String → Option Json) (content subject : String)
    (limit : Nat) (elems : List Json) (hl : loads content = some (.arr elems))
    (ht : (elems.take limit).all tameElem = true) :
    monolithParse loads content subject limit =
      .ok (((elems.take limit).filter monolithKeeps).map (monolithDraftOf subject)) := by
  simp only [monolithParse, loadsPhase, hl, bind_ok, ensureList]
  exact monolithLoop_tame subject _ ht

/-- The package parse of a decoded array validates the first `limit`
elements, raising exactly when none of them carries the required keys. -/
theorem pkgParseResponse_arr (loads : String → Option Json) (content subject : String)
    (limit : Nat) (elems : List Json) (hl : loads content = some (.arr elems))
    (hobjs : (elems.take limit).all isObj = true) :
    pkgParseResponse loads content subject limit =
      if (pkgKept subject 0 (elems.take limit)).isEmpty
      then .error (.valueError "No valid questions generated")
      else .ok (pkgKept subject 0 (elems.take limit)) := by
  simp only [pkgParseResponse, loadsPhase, hl, bind_ok, ensureList,
    pkgLoop_objs subject _ 0 hobjs]
  rfl

/-- The package loop keeps nothing exactly when every element lacks a
required key. -/
theorem pkgKept_isEmpty (subject : String) (qs : List Json) (i : Nat) :
    (pkgKept subject i qs).isEmpty = qs.all (fun q => !hasRequiredKeys q) := by
  induction qs generalizing i with
  | nil => rfl
  | cons q qs ih =>
    by_cases hkq : hasRequiredKeys q = true
    · simp [pkgKept, hkq]
    · simp [pkgKept, hkq, ih (i + 1)]

/-- When every element carries the required keys, the package loop keeps
them all. -/
theorem pkgKept_length (subject : String) (qs : List Json) (i : Nat)
    (h : qs.all hasRequiredKeys = true) :
    (pkgKept subject i qs).length = qs.length := by
  induction qs generalizing i with
  | nil => rfl
  | cons q qs ih =>
    simp only [List.all_cons, Bool.and_eq_true] at h
    simp [pkgKept, h.1, ih (i + 1) h.2]

/-- A value drawn from `{a,b,c,d}` is a string, hence hashable. -/
theorem isAbcd_hashable (v : Json) (h : isAbcd v = true) : hashable v = true := by
  cases v <;> simp_all [isAbcd, BEq.beq, Json.beq, hashable]

/-- A spec-well-formed element carries the required keys. -/
theorem specWellFormed_hasKeys (q : Json) (h : specWellFormed q = true) :
    hasRequiredKeys q = true := by
  simp only [specWellFormed, Bool.and_eq_true] at h
  exact h.1

/-- Only a dict can carry the required keys. -/
theorem hasRequiredKeys_isObj (q : Json) (h : hasRequiredKeys q = true) :
    isObj q = true := by
  cases q <;> simp_all [hasRequiredKeys, isObj]

/-- A spec-well-formed element passes every check of the monolith loop. -/
theorem specWellFormed_keeps (q : Json) (h : specWellFormed q = true) :
    monolithKeeps q = true := by
  simp only [specWellFormed, Bool.and_eq_true] at h
  obtain ⟨hk, hrest⟩ := h
  simp only [monolithKeeps, hk, Bool.true_and]
  cases hvo : q.lookup "options" with
  | none => rw [hvo] at hrest; cases hrest
  | some vo =>
    rw [hvo] at hrest
    cases vo with
    | arr opts =>
      simp only [Bool.and_eq_true] at hrest ⊢
      tauto
    | null => cases hrest
    | bool b => cases hrest
    | num n => cases hrest
    | str s => cases hrest
    | obj gs => cases hrest

/-- A spec-well-formed element is tame: its options are dicts with string
ids, so the monolith loop cannot raise on it. -/
theorem specWellFormed_tame (q : Json) (h : specWellFormed q = true) :
    tameElem q = true := by
  have hk := specWellFormed_hasKeys q h
  have hobj := hasRequiredKeys_isObj q hk
  cases q with
  | obj fs =>
    simp only [specWellFormed, Bool.and_eq_true] at h
    obtain ⟨-, hrest⟩ := h
    simp only [tameElem]
    cases hvo : (Json.obj fs).lookup "options" with
    | none => rfl
    | some vo =>
      rw [hvo] at hrest
      cases vo with
      | arr opts =>
        simp only [Bool.and_eq_true] at hrest
        obtain ⟨⟨⟨⟨hlen, hidtext⟩, hdis⟩, habcd⟩, hcont⟩ := hrest
        have habcd' := List.all_eq_true.mp habcd
        have hidtext' := List.all_eq_true.mp hidtext
        have hall : opts.all
            (fun o => isObj o && hashable ((o.lookup "id").getD .null)) = true := by
          refine List.all_eq_true.mpr fun o ho => ?_
          have hids : isAbcd ((o.lookup "id").getD .null) = true := by
            have hmem : ((o.lookup "id").getD .null) ∈ optionIdsOf opts :=
              List.mem_map.mpr ⟨o, ho, rfl⟩
            exact habcd' _ hmem
          have hsome : (o.lookup "id").isSome = true := by
            have hot := hidtext' o ho
            simp only [Bool.and_eq_true] at hot
            exact hot.1
          have hobj2 : isObj o = true := by
            obtain ⟨w, hw⟩ := Option.isSome_iff_exists.mp hsome
            cases o <;> simp_all [Json.lookup, isObj]
          simp [hobj2, isAbcd_hashable _ hids]
        simp [hall]
      | null => rfl
      | bool b => rfl
      | num n => rfl
      | str s => rfl
      | obj gs => rfl
  | null => cases hobj
  | bool b => cases hobj
  | num n => cases hobj
  | str s => cases hobj
  | arr es => cases hobj

theorem charFind_not_mem (cs : List Char) (c : Char) (h : ∀ x ∈ cs, x ≠ c) :
    charFind cs c = none := by
  induction cs with
  | nil => rfl
  | cons x xs ih =>
    have hx : (x == c) = false := by
      simp [h x (List.mem_cons_self x xs)]
    simp [charFind, hx, ih fun y hy => h y (List.mem_cons_of_mem x hy)]

theorem charFind_append (pre rest : List Char) (c : Char) (h : ∀ x ∈ pre, x ≠ c) :
    charFind (pre ++ rest) c = (charFind rest c).map (· + pre.length) := by
  induction pre with
  | nil => simp
  | cons x xs ih =>
    have hx : (x == c) = false := by
      simp [h x (List.mem_cons_self x xs)]
    have ih2 := ih fun y hy => h y (List.mem_cons_of_mem x hy)
    cases hf : charFind rest c with
    | none => simp [charFind, hx, ih2, hf]
    | some j => simp [charFind, hx, ih2, hf, Nat.add_assoc]

theorem charFind_getElem (cs : List Char) (c : Char) (i : Nat)
    (h : charFind cs c = some i) : cs[i]? = some c ∧ i < cs.length := by
  induction cs generalizing i with
  | nil => cases h
  | cons x xs ih =>
    rw [show charFind (x :: xs) c =
        (if x == c then some 0 else (charFind xs c).map (· + 1)) from rfl] at h
    by_cases hx : (x == c) = true
    · rw [if_pos hx] at h
      cases h
      have hc : x = c := by simpa using hx
      subst hc
      simp
    · rw [if_neg hx] at h
      cases hf : charFind xs c with
      | none => rw [hf] at h; cases h
      | some j =>
        rw [hf] at h
        cases h
        obtain ⟨h1, h2⟩ := ih j hf
        constructor
        · simpa using h1
        · simp only [List.length_cons]
          omega

theorem charRFind_getElem (cs : List Char) (c : Char) (e : Nat)
    (h : charRFind cs c = some e) : cs[e]? = some c ∧ e < cs.length := by
  unfold charRFind at h
  cases hf : charFind cs.reverse c with
  | none => rw [hf] at h; cases h
  | some i =>
    rw [hf, Option.map_some'] at h
    have he : cs.length - 1 - i = e := by
      have h2 := Option.some.inj h
      simpa using h2
    obtain ⟨hg, hl⟩ := charFind_getElem cs.reverse c i hf
    rw [List.length_reverse] at hl
    rw [List.getElem?_reverse hl] at hg
    subst he
    exact ⟨hg, by omega⟩

/-- When the text has no `'['` at or before a `']'`, the bracket salvage
finds nothing. -/
theorem salvageSlice_none (content : String)
    (h : ¬∃ i j : Nat, i ≤ j ∧ content.data[i]? = some '[' ∧
      content.data[j]? = some ']') :
    salvageSlice content = none := by
  unfold salvageSlice
  cases hf : charFind content.data '[' with
  | none => rfl
  | some s =>
    cases hr : charRFind content.data ']' with
    | none => rfl
    | some e =>
      by_cases hcmp : e + 1 > s
      · exact absurd ⟨s, e, by omega, (charFind_getElem _ _ _ hf).1,
          (charRFind_getElem _ _ _ hr).1⟩ h
      · simp [hcmp]

/-- With both bracket scans succeeding, the salvage is the guarded slice. -/
theorem salvageSlice_eq (content : String) (s e : Nat)
    (hf : charFind content.data '[' = some s)
    (hr : charRFind content.data ']' = some e) :
    salvageSlice content =
      if e + 1 > s then some (String.mk ((content.data.drop s).take (e + 1 - s)))
      else none := by
  unfold salvageSlice
  rw [hf, hr]

/-- A JSON array wrapped in prose — no `'['` before it, no `']'` after it —
is recovered whole by the bracket salvage. -/
theorem salvageSlice_wrap (pre inner post : List Char)
    (hpre : ∀ x ∈ pre, x ≠ '[') (hpost : ∀ x ∈ post, x ≠ ']') :
    salvageSlice (String.mk (pre ++ ('[' :: (inner ++ [']'])) ++ post)) =
      some (String.mk ('[' :: (inner ++ [']']))) := by
  have hfind : charFind (pre ++ ('[' :: (inner ++ [']'])) ++ post) '[' =
      some pre.length := by
    rw [List.append_assoc, charFind_append pre _ '[' hpre]
    simp [charFind]
  have hrev : (pre ++ ('[' :: (inner ++ [']'])) ++ post).reverse =
      post.reverse ++ (']' :: (inner.reverse ++ ('[' :: pre.reverse))) := by
    simp [List.reverse_append]
  have hrfindrev : charFind (pre ++ ('[' :: (inner ++ [']'])) ++ post).reverse ']' =
      some post.length := by
    rw [hrev, charFind_append post.reverse _ ']'
      (fun x hx => hpost x (List.mem_reverse.mp hx))]
    simp [charFind]
  have hlen : (pre ++ ('[' :: (inner ++ [']'])) ++ post).length =
      pre.length + (inner.length + 2) + post.length := by
    simp
    omega
  have hrfind : charRFind (pre ++ ('[' :: (inner ++ [']'])) ++ post) ']' =
      some (pre.length + inner.length + 1) := by
    unfold charRFind
    rw [hrfindrev, hlen, Option.map_some']
    congr 1
    omega
  rw [salvageSlice_eq (String.mk (pre ++ ('[' :: (inner ++ [']'])) ++ post))
    pre.length (pre.length + inner.length + 1) hfind hrfind]
  rw [if_pos (by omega)]
  have hslice : (((String.mk (pre ++ ('[' :: (inner ++ [']'])) ++ post)).data.drop
      pre.length).take (pre.length + inner.length + 1 + 1 - pre.length)) =
      '[' :: (inner ++ [']']) := by
    show (((pre ++ ('[' :: (inner ++ [']'])) ++ post).drop pre.length).take
      (pre.length + inner.length + 1 + 1 - pre.length)) = '[' :: (inner ++ [']'])
    rw [List.append_assoc, List.drop_left pre _]
    have hn : pre.length + inner.length + 1 + 1 - pre.length =
        ('[' :: (inner ++ [']'])).length := by
      simp
      omega
    rw [hn]
    exact List.take_left _ post
  rw [hslice]

/-- The monolith draft copies `options` and `correct_answer` verbatim. -/
theorem monolithDraft_lookups (subject : String) (q : Json)
    (h : hasRequiredKeys q = true) :
    (monolithDraftOf subject q).lookup "options" = q.lookup "options" ∧
    (monolithDraftOf subject q).lookup "correct_answer" = q.lookup "correct_answer" := by
  have hobj := hasRequiredKeys_isObj q h
  cases q with
  | obj fs =>
    obtain ⟨-, hos, hcs⟩ := hasRequiredKeys_lookup fs h
    obtain ⟨vo, hvo⟩ := Option.isSome_iff_exists.mp hos
    obtain ⟨vc, hvc⟩ := Option.isSome_iff_exists.mp hcs
    simp only [Json.lookup] at hvo hvc
    constructor <;> simp [monolithDraftOf, Json.lookup, List.find?, hvo, hvc]
  | null => cases hobj
  | bool b => cases hobj
  | num n => cases hobj
  | str s => cases hobj
  | arr es => cases hobj

/-- The package draft copies `options` and `correct_answer` verbatim too. -/
theorem pkgDraft_lookups (subject : String) (i : Nat) (q : Json)
    (h : hasRequiredKeys q = true) :
    (pkgDraftOf subject i q).lookup "options" = q.lookup "options" ∧
    (pkgDraftOf subject i q).lookup "correct_answer" = q.lookup "correct_answer" := by
  have hobj := hasRequiredKeys_isObj q h
  cases q with
  | obj fs =>
    obtain ⟨-, hos, hcs⟩ := hasRequiredKeys_lookup fs h
    obtain ⟨vo, hvo⟩ := Option.isSome_iff_exists.mp hos
    obtain ⟨vc, hvc⟩ := Option.isSome_iff_exists.mp hcs
    simp only [Json.lookup] at hvo hvc
    constructor <;> simp [pkgDraftOf, Json.lookup, List.find?, hvo, hvc]
  | null => cases hobj
  | bool b => cases hobj
  | num n => cases hobj
  | str s => cases hobj
  | arr es => cases hobj

/-- Every branch of the package except-clause cascade is a `RuntimeError`. -/
theorem pkgClassify_runtime (e : PyExn) : ∃ m, pkgClassify e = .runtimeError m := by
  cases e <;> exact ⟨_, rfl⟩

/-- Any error the package `generate_questions` surfaces is a `RuntimeError`. -/
theorem pkgGenerate_error_runtime (loads : String → Option Json) (clientInit : Bool)
    (subject : String) (limit : Nat) (transport : Except PyExn (Option String))
    (e : PyExn) (h : pkgGenerate loads clientInit subject limit transport = .error e) :
    ∃ m, e = .runtimeError m := by
  unfold pkgGenerate at h
  split at h
  · simp at h
  · split at h
    · simp at h
    · rename_i e2 _
      obtain rfl : pkgClassify e2 = e := by
        cases h
        rfl
      exact pkgClassify_runtime e2

/-- The package loop keeps something as soon as one element has the keys. -/
theorem pkgKept_ne_nil (subject : String) (qs : List Json) (i : Nat)
    (h : qs.any hasRequiredKeys = true) : (pkgKept subject i qs).isEmpty = false := by
  rw [pkgKept_isEmpty]
  cases hall : qs.all (fun q => !hasRequiredKeys q)
  · rfl
  · exfalso
    obtain ⟨w, hw, hpw⟩ := List.any_eq_true.mp h
    have h2 := List.all_eq_true.mp hall w hw
    simp [hpw] at h2

/-- The monolith keeps something as soon as one element passes its checks. -/
theorem filter_keeps_ne_nil (qs : List Json) (w : Json) (hw : w ∈ qs)
    (hk : monolithKeeps w = true) : qs.filter monolithKeeps ≠ [] := by
  intro h0
  exact List.filter_eq_nil_iff.mp h0 w hw hk

/-- A tame element is a dict. -/
theorem tameElem_isObj (q : Json) (h : tameElem q = true) : isObj q = true := by
  cases q <;> simp_all [tameElem, isObj]

end Lemmas

/-- Claim C1 (counterexample): on a response holding one spec-well-formed
element and one element with a duplicate option id, the package
`_parse_response` returns BOTH drafts — the malformed element is not dropped,
so parse does not return exactly the well-formed ones. -/
theorem c1_counterexample :
    pkgParseResponse loadsGoodDup "RAW" "geography" 5 =
      .ok [pkgDraftOf "geography" 0 goodElem, pkgDraftOf "geography" 1 dupElem] ∧
    specWellFormed goodElem = true ∧ specWellFormed dupElem = false :=
  ⟨rfl, rfl, rfl⟩

/-- Claim C1 (amended): for a decoded array of tame elements containing a
well-formed one among the first `limit`, neither implementation aborts the
batch: the monolith drops failing elements individually and returns exactly
those passing its checks (duplicate ids and bad correct answers dropped),
while the package loop drops individually only the elements missing a
required key and keeps the rest. -/
theorem c1_amended (loads : String → Option Json) (content subject : String)
    (limit : Nat) (elems : List Json)
    (hl : loads content = some (.arr elems))
    (htame : (elems.take limit).all tameElem = true)
    (hwf : (elems.take limit).any specWellFormed = true) :
    monolithParse loads content subject limit =
      .ok (((elems.take limit).filter monolithKeeps).map (monolithDraftOf subject)) ∧
    pkgParseResponse loads content subject limit =
      .ok (pkgKept subject 0 (elems.take limit)) ∧
    ((elems.take limit).filter monolithKeeps).map (monolithDraftOf subject) ≠ [] ∧
    pkgKept subject 0 (elems.take limit) ≠ [] := by
  obtain ⟨w, hw, hwfw⟩ := List.any_eq_true.mp hwf
  have hobjs : (elems.take limit).all isObj = true :=
    List.all_eq_true.mpr fun q hq => tameElem_isObj q (List.all_eq_true.mp htame q hq)
  have hne : (pkgKept subject 0 (elems.take limit)).isEmpty = false :=
    pkgKept_ne_nil subject _ 0
      (List.any_eq_true.mpr ⟨w, hw, specWellFormed_hasKeys w hwfw⟩)
  refine ⟨monolithParse_arr loads content subject limit elems hl htame, ?_, ?_, ?_⟩
  · rw [pkgParseResponse_arr loads content subject limit elems hl hobjs]
    simp [hne]
  · have hwmem : w ∈ (elems.take limit).filter monolithKeeps :=
      List.mem_filter.mpr ⟨hw, specWellFormed_keeps w hwfw⟩
    exact List.ne_nil_of_mem (List.mem_map_of_mem (monolithDraftOf subject) hwmem)
  · intro h0
    rw [h0] at hne
    simp at hne

/-- Claim C1 (witness): the amended statement evaluated on the concrete
good-plus-duplicate response. -/
theorem c1_witness :
    loadsGoodDup "RAW" = some (.arr [goodElem, dupElem]) ∧
    ([goodElem, dupElem].take 5).all tameElem = true ∧
    ([goodElem, dupElem].take 5).any specWellFormed = true ∧
    (monolithParse loadsGoodDup "RAW" "geography" 5 =
      .ok ((([goodElem, dupElem].take 5).filter monolithKeeps).map
        (monolithDraftOf "geography")) ∧
    pkgParseResponse loadsGoodDup "RAW" "geography" 5 =
      .ok (pkgKept "geography" 0 ([goodElem, dupElem].take 5)) ∧
    (([goodElem, dupElem].take 5).filter monolithKeeps).map
      (monolithDraftOf "geography") ≠ [] ∧
    pkgKept "geography" 0 ([goodElem, dupElem].take 5) ≠ []) :=
  ⟨rfl, rfl, rfl,
    c1_amended loadsGoodDup "RAW" "geography" 5 [goodElem, dupElem] rfl rfl rfl⟩

/-- Claim C2 (counterexample): on a response with zero well-formed items the
monolith parse does not fail — it returns an empty success (`return []`),
while only the package version raises. -/
theorem c2_counterexample :
    monolithParse loadsBad "RAW" "geography" 5 = .ok [] ∧
    specWellFormed badElem = false ∧
    pkgParseResponse loadsBad "RAW" "geography" 5 =
      .error (.valueError "No valid questions generated") :=
  ⟨rfl, rfl, rfl⟩

/-- Claim C2 (amended): the package `_parse_response` fails with the
`ValueError("No valid questions generated")` parse error exactly when none of
the first `limit` elements carries the required keys, and succeeds with a
non-empty result as soon as one does; the monolith, by contrast, returns an
empty list (success) when every element fails its checks. -/
theorem c2_amended (loads : String → Option Json) (content subject : String)
    (limit : Nat) (elems : List Json)
    (hl : loads content = some (.arr elems))
    (hobjs : (elems.take limit).all isObj = true) :
    (pkgParseResponse loads content subject limit =
        .error (.valueError "No valid questions generated") ↔
      (elems.take limit).all (fun q => !hasRequiredKeys q) = true) ∧
    ((elems.take limit).any hasRequiredKeys = true →
      pkgParseResponse loads content subject limit =
        .ok (pkgKept subject 0 (elems.take limit)) ∧
      pkgKept subject 0 (elems.take limit) ≠ []) ∧
    ((elems.take limit).all tameElem = true →
      (elems.take limit).all (fun q => !monolithKeeps q) = true →
      monolithParse loads content subject limit = .ok []) := by
  have harr := pkgParseResponse_arr loads content subject limit elems hl hobjs
  refine ⟨?_, ?_, ?_⟩
  · rw [harr, ← pkgKept_isEmpty subject (elems.take limit) 0]
    cases hE : (pkgKept subject 0 (elems.take limit)).isEmpty
    · simp [hE]
    · simp [hE]
  · intro hany
    have hne := pkgKept_ne_nil subject (elems.take limit) 0 hany
    constructor
    · rw [harr]
      simp [hne]
    · intro h0
      rw [h0] at hne
      simp at hne
  · intro htame hnone
    rw [monolithParse_arr loads content subject limit elems hl htame]
    have hfil : (elems.take limit).filter monolithKeeps = [] :=
      List.filter_eq_nil_iff.mpr fun q hq => by
        have := List.all_eq_true.mp hnone q hq
        simp at this
        simp [this]
    rw [hfil]
    rfl

/-- Claim C2 (witness): the amended statement evaluated on the concrete
all-malformed response. -/
theorem c2_witness :
    loadsBad "RAW" = some (.arr [badElem]) ∧
    ([badElem].take 5).all isObj = true ∧
    ((pkgParseResponse loadsBad "RAW" "geography" 5 =
        .error (.valueError "No valid questions generated") ↔
      ([badElem].take 5).all (fun q => !hasRequiredKeys q) = true) ∧
    (([badElem].take 5).any hasRequiredKeys = true →
      pkgParseResponse loadsBad "RAW" "geography" 5 =
        .ok (pkgKept "geography" 0 ([badElem].take 5)) ∧
      pkgKept "geography" 0 ([badElem].take 5) ≠ []) ∧
    (([badElem].take 5).all tameElem = true →
      ([badElem].take 5).all (fun q => !monolithKeeps q) = true →
      monolithParse loadsBad "RAW" "geography" 5 = .ok [])) :=
  ⟨rfl, rfl, c2_amended loadsBad "RAW" "geography" 5 [badElem] rfl rfl⟩

/-- Claim C3 (counterexample): the empty JSON array is a syntactically valid
array of N = 0 well-formed question objects with N ≤ limit, yet the package
`_parse_response` raises its parse error instead of returning 0 drafts. -/
theorem c3_counterexample :
    pkgParseResponse loadsEmptyArr "RAW" "geography" 5 =
      .error (.valueError "No valid questions generated") ∧
    (Except.error (PyExn.valueError "No valid questions generated") :
      Except PyExn (List Json)) ≠ .ok [] :=
  ⟨rfl, fun h => Except.noConfusion h⟩

/-- Claim C3 (amended): for a decoded array of N ≥ 1 spec-well-formed
question objects with N ≤ limit, both parse implementations return exactly N
drafts, each preserving the source `options` and `correct_answer` verbatim
(at N = 0 only the monolith returns an empty success; the package raises,
per C2). -/
theorem c3_wellformed_preserved (loads : String → Option Json)
    (content subject : String) (limit : Nat) (elems : List Json)
    (hl : loads content = some (.arr elems))
    (hne : elems ≠ [])
    (hN : elems.length ≤ limit)
    (hwf : elems.all specWellFormed = true) :
    monolithParse loads content subject limit =
      .ok (elems.map (monolithDraftOf subject)) ∧
    pkgParseResponse loads content subject limit = .ok (pkgKept subject 0 elems) ∧
    (elems.map (monolithDraftOf subject)).length = elems.length ∧
    (pkgKept subject 0 elems).length = elems.length ∧
    (∀ q ∈ elems,
      (monolithDraftOf subject q).lookup "options" = q.lookup "options" ∧
      (monolithDraftOf subject q).lookup "correct_answer" =
        q.lookup "correct_answer") ∧
    (∀ i : Nat, ∀ q ∈ elems,
      (pkgDraftOf subject i q).lookup "options" = q.lookup "options" ∧
      (pkgDraftOf subject i q).lookup "correct_answer" =
        q.lookup "correct_answer") := by
  have htake : elems.take limit = elems := List.take_of_length_le hN
  have hwf' := List.all_eq_true.mp hwf
  have htame : (elems.take limit).all tameElem = true := by
    rw [htake]
    exact List.all_eq_true.mpr fun q hq => specWellFormed_tame q (hwf' q hq)
  have hobjs : (elems.take limit).all isObj = true := by
    rw [htake]
    exact List.all_eq_true.mpr
      fun q hq => hasRequiredKeys_isObj q (specWellFormed_hasKeys q (hwf' q hq))
  have hkeys : ∀ q ∈ elems, hasRequiredKeys q = true :=
    fun q hq => specWellFormed_hasKeys q (hwf' q hq)
  refine ⟨?_, ?_, by simp, ?_, ?_, ?_⟩
  · rw [monolithParse_arr loads content subject limit elems hl htame, htake,
      List.filter_eq_self.mpr fun q hq => specWellFormed_keeps q (hwf' q hq)]
  · obtain ⟨w, hw⟩ := List.exists_mem_of_ne_nil elems hne
    have hne2 : (pkgKept subject 0 (elems.take limit)).isEmpty = false := by
      rw [htake]
      exact pkgKept_ne_nil subject elems 0
        (List.any_eq_true.mpr ⟨w, hw, hkeys w hw⟩)
    rw [pkgParseResponse_arr loads content subject limit elems hl hobjs, htake]
    rw [htake] at hne2
    simp [hne2]
  · exact pkgKept_length subject elems 0 (List.all_eq_true.mpr hkeys)
  · exact fun q hq => monolithDraft_lookups subject q (hkeys q hq)
  · exact fun i q hq => pkgDraft_lookups subject i q (hkeys q hq)

/-- Claim C3 (witness): the amended statement evaluated on the one-element
spec §8 response with `limit = 2`. -/
theorem c3_witness :
    loadsGood "RAW" = some (.arr [goodElem]) ∧
    [goodElem] ≠ ([] : List Json) ∧
    [goodElem].length ≤ 2 ∧
    [goodElem].all specWellFormed = true ∧
    (monolithParse loadsGood "RAW" "geography" 2 =
      .ok ([goodElem].map (monolithDraftOf "geography")) ∧
    pkgParseResponse loadsGood "RAW" "geography" 2 =
      .ok (pkgKept "geography" 0 [goodElem]) ∧
    ([goodElem].map (monolithDraftOf "geography")).length = [goodElem].length ∧
    (pkgKept "geography" 0 [goodElem]).length = [goodElem].length ∧
    (∀ q ∈ [goodElem],
      (monolithDraftOf "geography" q).lookup "options" = q.lookup "options" ∧
      (monolithDraftOf "geography" q).lookup "correct_answer" =
        q.lookup "correct_answer") ∧
    (∀ i : Nat, ∀ q ∈ [goodElem],
      (pkgDraftOf "geography" i q).lookup "options" = q.lookup "options" ∧
      (pkgDraftOf "geography" i q).lookup "correct_answer" =
        q.lookup "correct_answer")) :=
  ⟨rfl, fun h => List.noConfusion h, by decide, rfl,
    c3_wellformed_preserved loadsGood "RAW" "geography" 2 [goodElem] rfl
      (fun h => List.noConfusion h) (by decide) rfl⟩

/-- Claim C4: when the strict decode of the whole text fails, the parse
retries on the substring from the first `[` to the last `]`; a JSON array
wrapped in prose is recovered whole; and without a usable bracket pair the
loads phase — and with it both parse implementations — fails with the
`ValueError("Could not parse AI response as JSON")` parse error. -/
theorem c4_bracket_salvage (loads : String → Option Json) :
    (∀ content sub v, loads content = none → salvageSlice content = some sub →
      loads sub = some v → loadsPhase loads content = .ok v) ∧
    (∀ pre inner post v,
      (∀ x ∈ pre, x ≠ '[') → (∀ x ∈ post, x ≠ ']') →
      loads (String.mk (pre ++ ('[' :: (inner ++ [']'])) ++ post)) = none →
      loads (String.mk ('[' :: (inner ++ [']']))) = some v →
      loadsPhase loads (String.mk (pre ++ ('[' :: (inner ++ [']'])) ++ post)) =
        .ok v) ∧
    (∀ content, loads content = none →
      (¬∃ i j : Nat, i ≤ j ∧ content.data[i]? = some '[' ∧
        content.data[j]? = some ']') →
      loadsPhase loads content =
        .error (.valueError "Could not parse AI response as JSON")) ∧
    (∀ content subject limit, loads content = none → salvageSlice content = none →
      pkgParseResponse loads content subject limit =
        .error (.valueError "Could not parse AI response as JSON") ∧
      monolithParse loads content subject limit =
        .error (.valueError "Could not parse AI response as JSON")) := by
  refine ⟨?_, ?_, ?_, ?_⟩
  · intro content sub v h1 h2 h3
    unfold loadsPhase
    rw [h1, h2]
    show (match loads sub with
      | some v => (Except.ok v : Except PyExn Json)
      | none => Except.error PyExn.jsonDecodeError) = Except.ok v
    rw [h3]
  · intro pre inner post v hpre hpost h1 h2
    unfold loadsPhase
    rw [h1, salvageSlice_wrap pre inner post hpre hpost]
    show (match loads (String.mk ('[' :: (inner ++ [']']))) with
      | some v => (Except.ok v : Except PyExn Json)
      | none => Except.error PyExn.jsonDecodeError) = Except.ok v
    rw [h2]
  · intro content h1 h2
    unfold loadsPhase
    rw [h1, salvageSlice_none content h2]
  · intro content subject limit h1 h2
    have hlp : loadsPhase loads content =
        .error (.valueError "Could not parse AI response as JSON") := by
      unfold loadsPhase
      rw [h1, h2]
    constructor
    · unfold pkgParseResponse
      rw [hlp, bind_error]
    · unfold monolithParse
      rw [hlp, bind_error]

/-- Claim C4 (witness): the salvage conjuncts evaluated on concrete texts:
an array wrapped in prose is recovered, and a bracketless text fails with
the parse `ValueError`. -/
theorem c4_witness :
    loadsPhase loadsW4 "see [x] ok" = .ok (.arr [goodElem]) ∧
    loadsPhase loadsW4
      (String.mk (['s', 'e', 'e', ' '] ++ ('[' :: (['x'] ++ [']'])) ++
        [' ', 'o', 'k'])) = .ok (.arr [goodElem]) ∧
    loadsPhase loadsW4 "nothing here" =
      .error (.valueError "Could not parse AI response as JSON") ∧
    (pkgParseResponse loadsW4 "no pair" "geography" 5 =
      .error (.valueError "Could not parse AI response as JSON") ∧
    monolithParse loadsW4 "no pair" "geography" 5 =
      .error (.valueError "Could not parse AI response as JSON")) :=
  ⟨(c4_bracket_salvage loadsW4).1 "see [x] ok" "[x]" (.arr [goodElem]) rfl rfl rfl,
   (c4_bracket_salvage loadsW4).2.1 ['s', 'e', 'e', ' '] ['x'] [' ', 'o', 'k']
     (.arr [goodElem]) (by decide) (by decide) rfl rfl,
   (c4_bracket_salvage loadsW4).2.2.1 "nothing here" rfl
     (by
       rintro ⟨i, j, hij, hi, hj⟩
       exact absurd (List.getElem?_mem hi) (by decide)),
   (c4_bracket_salvage loadsW4).2.2.2 "no pair" "geography" 5 rfl rfl⟩

/-- Claim C5 (counterexample): the package factory builds an OpenAI provider
with an uninitialized client when the API key is missing (no
`ConfigurationError`), and the monolith factory silently falls back to the
default Ollama provider for an unrecognized provider name (no
`UnknownProviderError`). -/
theorem c5_counterexample :
    create_llm_provider "openai" none "gpt-4o-mini" "http://localhost:11434" false =
      .ok (.openaiP none "gpt-4o-mini" false) ∧
    get_llm_provider (some "mystery") none none none none =
      .ok (.ollamaM "http://localhost:11434" "llama3.2") :=
  ⟨rfl, rfl⟩

/-- Claim C5 (amended): the package factory raises `ValueError` for an
unknown provider name — before any network probe, its result not depending on
the Ollama connection outcome — but returns an OpenAI provider whose client
stayed uninitialized when the key is missing; the monolith factory raises
`ValueError` when the OpenAI key is missing or empty, but silently defaults
to Ollama for an unrecognized name. -/
theorem c5_amended :
    (∀ name : String, ∀ apiKey : Option String, ∀ model host : String,
      ∀ ok1 ok2 : Bool, name ≠ "ollama" → name ≠ "openai" →
      create_llm_provider name apiKey model host ok1 =
        .error (.valueError ("Unknown provider type: " ++ name)) ∧
      create_llm_provider name apiKey model host ok1 =
        create_llm_provider name apiKey model host ok2) ∧
    (∀ model host : String, ∀ ok : Bool,
      create_llm_provider "openai" none model host ok =
        .ok (.openaiP none model false)) ∧
    (∀ hostEnv modelEnv omodelEnv : Option String,
      get_llm_provider (some "openai") none hostEnv modelEnv omodelEnv =
        .error (.valueError
          "OPENAI_API_KEY is required for OpenAIProvider but not found in environment variables.") ∧
      get_llm_provider (some "openai") (some "") hostEnv modelEnv omodelEnv =
        .error (.valueError
          "OPENAI_API_KEY is required for OpenAIProvider but not found in environment variables.")) ∧
    (∀ name : String, ∀ keyEnv hostEnv modelEnv omodelEnv : Option String,
      pyLower name ≠ "ollama" → pyLower name ≠ "openai" →
      get_llm_provider (some name) keyEnv hostEnv modelEnv omodelEnv =
        .ok (.ollamaM (hostEnv.getD "http://localhost:11434")
          (modelEnv.getD "llama3.2"))) := by
  refine ⟨?_, ?_, ?_, ?_⟩
  · intro name apiKey model host ok1 ok2 hn1 hn2
    have h1 : (name == "ollama") = false := by simp [hn1]
    have h2 : (name == "openai") = false := by simp [hn2]
    constructor <;> simp [create_llm_provider, h1, h2]
  · intro model host ok
    rfl
  · intro hostEnv modelEnv omodelEnv
    exact ⟨rfl, rfl⟩
  · intro name keyEnv hostEnv modelEnv omodelEnv hn1 hn2
    have h1 : (pyLower name == "ollama") = false := by simp [hn1]
    have h2 : (pyLower name == "openai") = false := by simp [hn2]
    simp [get_llm_provider, h1, h2]

/-- Claim C5 (witness): the amended statement evaluated at the concrete
provider name `mystery` and the missing/empty OpenAI key. -/
theorem c5_witness :
    (create_llm_provider "mystery" none "m" "h" false =
      .error (.valueError ("Unknown provider type: " ++ "mystery")) ∧
    create_llm_provider "mystery" none "m" "h" false =
      create_llm_provider "mystery" none "m" "h" true) ∧
    create_llm_provider "openai" none "gpt-4o-mini" "h" true =
      .ok (.openaiP none "gpt-4o-mini" false) ∧
    (get_llm_provider (some "openai") none none none none =
      .error (.valueError
        "OPENAI_API_KEY is required for OpenAIProvider but not found in environment variables.") ∧
    get_llm_provider (some "openai") (some "") none none none =
      .error (.valueError
        "OPENAI_API_KEY is required for OpenAIProvider but not found in environment variables.")) ∧
    get_llm_provider (some "mystery") (some "k") none none none =
      .ok (.ollamaM "http://localhost:11434" "llama3.2") :=
  ⟨c5_amended.1 "mystery" none "m" "h" false true (by decide) (by decide),
   c5_amended.2.1 "gpt-4o-mini" "h" true,
   c5_amended.2.2.1 none none none,
   c5_amended.2.2.2 "mystery" (some "k") none none none (by decide) (by decide)⟩

/-- Claim C6: the package health checks never raise: an uninitialized client
or any exception from the transport — whatever it is — yields `false`, and a
successful cheap request with a well-formed reply yields `true`. -/
theorem c6_health_never_raises :
    (∀ clientInit : Bool, ∀ e : PyExn,
      ollamaHealthCheck clientInit (.error e) = false) ∧
    (∀ clientInit : Bool, ∀ e : PyExn,
      openaiHealthCheck clientInit (.error e) = false) ∧
    (∀ fs gs : List (String × Json), ∀ c : Json,
      (Json.obj fs).lookup "message" = some (.obj gs) →
      (Json.obj gs).lookup "content" = some c →
      ollamaHealthCheck true (.ok (.obj fs)) = true) ∧
    (∀ s : String, ∀ rest : List (Option String),
      openaiHealthCheck true (.ok (some s :: rest)) = true) := by
  refine ⟨?_, ?_, ?_, ?_⟩
  · intro clientInit e
    cases clientInit <;> simp [ollamaHealthCheck, bind_error]
  · intro clientInit e
    cases clientInit <;> simp [openaiHealthCheck]
  · intro fs gs c h1 h2
    have hfs : fs ≠ [] := by
      intro h0
      subst h0
      simp [Json.lookup] at h1
    have hgs : gs ≠ [] := by
      intro h0
      subst h0
      simp [Json.lookup] at h2
    have htr : truthy (.obj fs) = true := by simp [truthy, hfs]
    have htg : truthy (.obj gs) = true := by simp [truthy, hgs]
    have hany : gs.any (fun p => p.1 == "content") = true := by
      rw [← lookup_isSome_eq_any]
      simp [h2]
    simp [ollamaHealthCheck, ollamaHealthBody, bind_ok, pure_eq_ok, pyGet, pyGetD,
      h1, h2, htr, htg, hany, keyIn]
  · intro s rest
    rfl

/-- Claim C6 (witness): both health checks at a thrown transport error and at
a successful well-formed reply. -/
theorem c6_witness :
    ollamaHealthCheck true (.error .typeError) = false ∧
    openaiHealthCheck true (.error (.ollamaResponseError "boom")) = false ∧
    ollamaHealthCheck true
      (.ok (.obj [("message", .obj [("content", .str "hi")])])) = true ∧
    openaiHealthCheck true (.ok [some "ok"]) = true :=
  ⟨c6_health_never_raises.1 true .typeError,
   c6_health_never_raises.2.1 true (.ollamaResponseError "boom"),
   c6_health_never_raises.2.2.1 [("message", .obj [("content", .str "hi")])]
     [("content", .str "hi")] (.str "hi") rfl rfl,
   c6_health_never_raises.2.2.2 "ok" []⟩

/-- Claim C7 (counterexample): on an unparseable response the monolith
`generate_questions` re-raises the parse failure as a bare `ValueError` —
not one of the classified provider-error kinds — so an untyped failure
crosses the subsystem boundary. -/
theorem c7_counterexample :
    monolithGenerate loadsNone "geography" 5 (.ok "unparseable") =
      .error (.valueError "Could not parse AI response as JSON") ∧
    taxonomyKind (.valueError "Could not parse AI response as JSON") = false :=
  ⟨rfl, rfl⟩

/-- Claim C7 (amended): the monolith classifies only connection errors
(`LLMConnectionError`) and Ollama API errors (`LLMAPIError`) and re-raises
everything else bare (parse `ValueError` included); the package provider
instead converts every failure into a generic `RuntimeError`, and surfaces an
uninitialized client as an empty success rather than an error. -/
theorem c7_amended :
    (∀ loads : String → Option Json, ∀ subject : String, ∀ limit : Nat,
      ∀ m : String,
      monolithGenerate loads subject limit (.error (.requestsConnectionError m)) =
        .error (.llmConnectionError
          "Could not connect to Ollama. Ensure Ollama is running.")) ∧
    (∀ loads : String → Option Json, ∀ subject : String, ∀ limit : Nat,
      ∀ m : String,
      monolithGenerate loads subject limit (.error (.ollamaResponseError m)) =
        .error (.llmAPIError ("Ollama API error: " ++ m))) ∧
    (∀ loads : String → Option Json, ∀ subject : String, ∀ limit : Nat,
      ∀ content : String, loads content = none → salvageSlice content = none →
      monolithGenerate loads subject limit (.ok content) =
        .error (.valueError "Could not parse AI response as JSON")) ∧
    (∀ loads : String → Option Json, ∀ clientInit : Bool, ∀ subject : String,
      ∀ limit : Nat, ∀ transport : Except PyExn (Option String), ∀ e : PyExn,
      pkgGenerate loads clientInit subject limit transport = .error e →
      ∃ m, e = .runtimeError m) ∧
    (∀ loads : String → Option Json, ∀ subject : String, ∀ limit : Nat,
      ∀ transport : Except PyExn (Option String),
      pkgGenerate loads false subject limit transport = .ok []) := by
  refine ⟨?_, ?_, ?_, ?_, ?_⟩
  · intro loads subject limit m
    rfl
  · intro loads subject limit m
    rfl
  · intro loads subject limit content h1 h2
    have hlp : loadsPhase loads content =
        .error (.valueError "Could not parse AI response as JSON") := by
      unfold loadsPhase
      rw [h1, h2]
    have hmp : monolithParse loads content subject limit =
        .error (.valueError "Could not parse AI response as JSON") := by
      unfold monolithParse
      rw [hlp, bind_error]
    unfold monolithGenerate
    rw [bind_ok, hmp]
    rfl
  · exact pkgGenerate_error_runtime
  · intro loads subject limit transport
    rfl

/-- Claim C7 (witness): the error surfaces evaluated at concrete transports:
classified connection and API errors, the bare parse `ValueError`, the
package's blanket `RuntimeError`, and the empty-success path. -/
theorem c7_witness :
    monolithGenerate loadsNone "geography" 5
      (.error (.requestsConnectionError "x")) =
      .error (.llmConnectionError
        "Could not connect to Ollama. Ensure Ollama is running.") ∧
    monolithGenerate loadsNone "geography" 5 (.error (.ollamaResponseError "y")) =
      .error (.llmAPIError ("Ollama API error: " ++ "y")) ∧
    monolithGenerate loadsNone "geography" 5 (.ok "zzz") =
      .error (.valueError "Could not parse AI response as JSON") ∧
    (∃ m, PyExn.runtimeError
      "Failed to parse response from Ollama: Could not parse AI response as JSON" =
      .runtimeError m) ∧
    pkgGenerate loadsNone false "geography" 5 (.error .typeError) = .ok [] :=
  ⟨c7_amended.1 loadsNone "geography" 5 "x",
   c7_amended.2.1 loadsNone "geography" 5 "y",
   c7_amended.2.2.1 loadsNone "geography" 5 "zzz" rfl rfl,
   c7_amended.2.2.2.1 loadsNone true "geography" 5 (.ok (some "zzz"))
     (.runtimeError
       "Failed to parse response from Ollama: Could not parse AI response as JSON")
     rfl,
   c7_amended.2.2.2.2 loadsNone "geography" 5 (.error .typeError)⟩

/-- Claim C8 (counterexample): the package `_parse_response` overwrites a
source-supplied `category` ("history") with the lowercased subject
("science") instead of preserving it. -/
theorem c8_counterexample :
    pkgParseResponse loadsCat "RAW" "Science" 5 =
      .ok [pkgDraftOf "Science" 0 catElem] ∧
    catElem.lookup "category" = some (.str "history") ∧
    (pkgDraftOf "Science" 0 catElem).lookup "category" = some (.str "science") ∧
    Json.str "science" ≠ Json.str "history" :=
  ⟨rfl, rfl, rfl, by
    intro h
    injection h with h2
    exact absurd h2 (by decide)⟩

/-- Claim C8 (amended): the monolith fills `category` with
`q_data.get("category", subject.lower())` — preserving a supplied category
and defaulting only when it is absent — while the package loop always writes
the lowercased subject, discarding any supplied category. -/
theorem c8_amended :
    (∀ subject : String, ∀ q : Json, tameElem q = true → monolithKeeps q = true →
      monolithValidate subject q = .ok (some (monolithDraftOf subject q)) ∧
      (monolithDraftOf subject q).lookup "category" =
        some ((q.lookup "category").getD (.str (pyLower subject)))) ∧
    (∀ subject : String, ∀ i : Nat, ∀ q : Json, isObj q = true →
      hasRequiredKeys q = true →
      pkgValidate subject i q = .ok (some (pkgDraftOf subject i q)) ∧
      (pkgDraftOf subject i q).lookup "category" =
        some (.str (pyLower subject))) := by
  constructor
  · intro subject q ht hk
    refine ⟨?_, ?_⟩
    · rw [monolithValidate_tame subject q ht, if_pos hk]
    · simp [monolithDraftOf, Json.lookup, List.find?]
  · intro subject i q hobj hk
    refine ⟨?_, ?_⟩
    · rw [pkgValidate_obj subject i q hobj, if_pos hk]
    · simp [pkgDraftOf, Json.lookup, List.find?]

/-- Claim C8 (witness): both per-element steps evaluated on the concrete
element carrying `category = "history"` with subject `Science`. -/
theorem c8_witness :
    tameElem catElem = true ∧ monolithKeeps catElem = true ∧
    (monolithValidate "Science" catElem =
        .ok (some (monolithDraftOf "Science" catElem)) ∧
     (monolithDraftOf "Science" catElem).lookup "category" =
        some ((catElem.lookup "category").getD (.str (pyLower "Science")))) ∧
    isObj catElem = true ∧ hasRequiredKeys catElem = true ∧
    (pkgValidate "Science" 0 catElem = .ok (some (pkgDraftOf "Science" 0 catElem)) ∧
     (pkgDraftOf "Science" 0 catElem).lookup "category" =
        some (.str (pyLower "Science"))) :=
  ⟨rfl, rfl, c8_amended.1 "Science" catElem rfl rfl, rfl, rfl,
   c8_amended.2 "Science" 0 catElem rfl rfl⟩

/-- Claim C9 (counterexample): the package `_parse_response` assigns each
returned draft an `id` of `1000 + i` — the subsystem does hand out
identifiers, and the draft carries five fields, not four. -/
theorem c9_counterexample :
    pkgParseResponse loadsGood "RAW" "geography" 2 =
      .ok [pkgDraftOf "geography" 0 goodElem] ∧
    (pkgDraftOf "geography" 0 goodElem).lookup "id" = some (.num 1000) ∧
    objKeys (pkgDraftOf "geography" 0 goodElem) =
      ["id", "text", "options", "correct_answer", "category"] :=
  ⟨rfl, rfl, rfl⟩

/-- Claim C9 (amended): only the monolith returns identifier-free drafts of
exactly the fields `text`, `options`, `correct_answer`, `category`; the
package and `llm/` parse implementations attach a transient `id` of
`1000 + i` to every draft. -/
theorem c9_amended :
    (∀ subject : String, ∀ q : Json, tameElem q = true → monolithKeeps q = true →
      monolithValidate subject q = .ok (some (monolithDraftOf subject q)) ∧
      (monolithDraftOf subject q).lookup "id" = none ∧
      objKeys (monolithDraftOf subject q) =
        ["text", "options", "correct_answer", "category"]) ∧
    (∀ subject : String, ∀ i : Nat, ∀ q : Json, isObj q = true →
      hasRequiredKeys q = true →
      pkgValidate subject i q = .ok (some (pkgDraftOf subject i q)) ∧
      (pkgDraftOf subject i q).lookup "id" = some (.num (1000 + (i : Int))) ∧
      objKeys (pkgDraftOf subject i q) =
        ["id", "text", "options", "correct_answer", "category"]) := by
  constructor
  · intro subject q ht hk
    refine ⟨?_, ?_, ?_⟩
    · rw [monolithValidate_tame subject q ht, if_pos hk]
    · simp [monolithDraftOf, Json.lookup, List.find?]
    · rfl
  · intro subject i q hobj hk
    refine ⟨?_, ?_, ?_⟩
    · rw [pkgValidate_obj subject i q hobj, if_pos hk]
    · simp [pkgDraftOf, Json.lookup, List.find?]
    · rfl

/-- Claim C9 (witness): both per-element steps evaluated on the spec §8
element. -/
theorem c9_witness :
    tameElem goodElem = true ∧ monolithKeeps goodElem = true ∧
    (monolithValidate "geography" goodElem =
        .ok (some (monolithDraftOf "geography" goodElem)) ∧
     (monolithDraftOf "geography" goodElem).lookup "id" = none ∧
     objKeys (monolithDraftOf "geography" goodElem) =
        ["text", "options", "correct_answer", "category"]) ∧
    isObj goodElem = true ∧ hasRequiredKeys goodElem = true ∧
    (pkgValidate "geography" 0 goodElem =
        .ok (some (pkgDraftOf "geography" 0 goodElem)) ∧
     (pkgDraftOf "geography" 0 goodElem).lookup "id" = some (.num 1000) ∧
     objKeys (pkgDraftOf "geography" 0 goodElem) =
        ["id", "text", "options", "correct_answer", "category"]) :=
  ⟨rfl, rfl, c9_amended.1 "geography" goodElem rfl rfl, rfl, rfl,
   c9_amended.2 "geography" 0 goodElem rfl rfl⟩

/-- Claim C10: both parse loops examine only the first `limit` array
elements: appending anything past position `limit` cannot change the result,
and a response whose first `limit` elements are all malformed still fails the
package parse with its parse error even when a spec-well-formed question sits
just past the limit. -/
theorem c10_limit_slice (loads loads2 : String → Option Json)
    (content content2 subject : String) (limit : Nat) (elems extra : List Json)
    (hl : loads content = some (.arr (elems ++ extra)))
    (hl2 : loads2 content2 = some (.arr elems))
    (hlen : elems.length = limit) :
    pkgParseResponse loads content subject limit =
      pkgParseResponse loads2 content2 subject limit ∧
    monolithParse loads content subject limit =
      monolithParse loads2 content2 subject limit ∧
    ((∃ w ∈ extra, specWellFormed w = true) →
      (∀ q ∈ elems, isObj q = true ∧ hasRequiredKeys q = false) →
      pkgParseResponse loads content subject limit =
        .error (.valueError "No valid questions generated")) := by
  subst hlen
  have htk : (elems ++ extra).take elems.length = elems := List.take_left elems extra
  have htk2 : elems.take elems.length = elems := List.take_of_length_le le_rfl
  refine ⟨?_, ?_, ?_⟩
  · simp only [pkgParseResponse, loadsPhase, hl, hl2, bind_ok, ensureList, htk, htk2]
  · simp only [monolithParse, loadsPhase, hl, hl2, bind_ok, ensureList, htk, htk2]
  · intro hlater hbad
    have hobjs : ((elems ++ extra).take elems.length).all isObj = true := by
      rw [htk]
      exact List.all_eq_true.mpr fun q hq => (hbad q hq).1
    rw [pkgParseResponse_arr loads content subject elems.length (elems ++ extra)
      hl hobjs]
    have hemp : (pkgKept subject 0 ((elems ++ extra).take elems.length)).isEmpty =
        true := by
      rw [pkgKept_isEmpty, htk]
      exact List.all_eq_true.mpr fun q hq => by simp [(hbad q hq).2]
    have hemp2 : (pkgKept subject 0 elems).isEmpty = true := by
      rw [htk] at hemp
      exact hemp
    simp [hemp]
    cases hpk : pkgKept subject 0 elems with
    | nil => rfl
    | cons a l =>
      rw [hpk] at hemp2
      simp at hemp2

/-- Claim C10 (witness): with `limit = 2`, two malformed elements followed by
the spec §8 element give the same results as the two malformed elements
alone, and the package parse still raises its parse error. -/
theorem c10_witness :
    (pkgParseResponse loadsLate "RAW" "geography" 2 =
      pkgParseResponse loadsTwoBad "RAW" "geography" 2 ∧
    monolithParse loadsLate "RAW" "geography" 2 =
      monolithParse loadsTwoBad "RAW" "geography" 2 ∧
    ((∃ w ∈ [goodElem], specWellFormed w = true) →
      (∀ q ∈ [badElem, badElem], isObj q = true ∧ hasRequiredKeys q = false) →
      pkgParseResponse loadsLate "RAW" "geography" 2 =
        .error (.valueError "No valid questions generated"))) ∧
    pkgParseResponse loadsLate "RAW" "geography" 2 =
      .error (.valueError "No valid questions generated") :=
  ⟨c10_limit_slice loadsLate loadsTwoBad "RAW" "RAW" "geography" 2
      [badElem, badElem] [goodElem] rfl rfl rfl,
   (c10_limit_slice loadsLate loadsTwoBad "RAW" "RAW" "geography" 2
      [badElem, badElem] [goodElem] rfl rfl rfl).2.2
     ⟨goodElem, List.mem_singleton.mpr rfl, rfl⟩
     (by
       intro q hq
       rcases List.mem_cons.mp hq with rfl | hq2
       · exact ⟨rfl, rfl⟩
       · rcases List.mem_cons.mp hq2 with rfl | h0
         · exact ⟨rfl, rfl⟩
         · cases h0)⟩

end Quizly
